import Mathlib

/-!
Verification of the Dactyl web-framework core (DI container, Router,
Application bootstrap) against its natural-language specification.

The definitions below are a shallow embedding of the TypeScript source:

* `src/example/DinosaurService.ts` — the `Router` class (registration,
  path normalization, container cache, dispatch entries, bootstrap
  message) and the example `DinosaurService` class;
* `src/application.ts_` — the `Application` class (constructor and
  `run`);
* `src/unnamed/part_000` — `EHttpMethod` and `RouteDefinition` from
  `types.ts`.

Mutable class state is modelled by explicit state records; a method that
throws is modelled as returning the untouched state together with an
error (the throw in the source happens before any mutation), or as an
`Except` value.  JS strings are modelled through their character lists.
The `DIContainer` and `ExecutionContainer` classes are not part of the
source tree; where a claim depends on their behaviour they are modelled
from the specification text and marked as such.
-/

namespace D2x

/-- JS values, as far as the embedded code produces and consumes them:
route bodies are arrays/objects of strings and numbers, and `undefined`
is a first-class value (e.g. an out-of-bounds array read). -/
inductive JSValue : Type
  | undefined
  | null
  | str (s : String)
  | num (n : Int)
  | arr (xs : List JSValue)
  | obj (fields : List (String × JSValue))

/-- The `EHttpMethod` enum from `types.ts` (`src/unnamed/part_000`). -/
inductive EHttpMethod : Type
  | get
  | post
  | put
  | patch
  | delete
deriving DecidableEq, Repr

/-- Uppercase rendering used by the bootstrap message
(`requestMethod.toUpperCase()`). -/
def EHttpMethod.upper : EHttpMethod → String
  | .get => "GET"
  | .post => "POST"
  | .put => "PUT"
  | .patch => "PATCH"
  | .delete => "DELETE"

/-- The `EInjectionScope` enum from `types.ts` (referenced by `application.ts_`
and the spec: Singleton, Transient, Request). -/
inductive EInjectionScope : Type
  | singleton
  | transient
  | request
deriving DecidableEq, Repr

/-- The `RouteDefinition` record from `types.ts` (`src/unnamed/part_000`):
`{ path, requestMethod, methodName }`. -/
structure RouteDefinition : Type where
  path : String
  requestMethod : EHttpMethod
  methodName : String
deriving DecidableEq, Repr

/-- The `ControllerMetadata` record as consumed by `Router.register`
(`const { prefix, routes } = meta`) and by the `Application`
constructor (`meta.scope`).  The `prefix` field is named `pfx` here. -/
structure ControllerMetadata : Type where
  pfx : String
  routes : List RouteDefinition
  scope : EInjectionScope
deriving DecidableEq, Repr

/-- A controller class as the registration code sees it: a `name`
(JS `controller.name`) and the metadata deposited by the `@Controller`
decorator; `getControllerOwnMeta` returns `undefined` when the class was
never decorated, modelled as an `Option`. -/
structure Controller : Type where
  name : String
  meta : Option ControllerMetadata
deriving DecidableEq, Repr

/-- The `getControllerOwnMeta` helper from `metadata.ts`: reads the controller's
own metadata, `none` when the class carries no controller metadata. -/
def getControllerOwnMeta (c : Controller) : Option ControllerMetadata :=
  c.meta

/-- An `ExecutionContainer` as the Router constructs it:
`new ExecutionContainer(meta, controller.name)`.  Its identity is its
two constructor arguments; its behaviour (`execute`) lives elsewhere. -/
structure ExecutionContainer : Type where
  meta : ControllerMetadata
  controllerName : String
deriving DecidableEq, Repr

/-- One installed dispatch entry: the oak-router verb call
`this[route.requestMethod](normalizedPath, handler)` where the handler
closes over the execution container and the route definition. -/
structure DispatchEntry : Type where
  requestMethod : EHttpMethod
  path : String
  container : ExecutionContainer
  route : RouteDefinition
deriving DecidableEq, Repr

/-- JS `s.slice(-1)`: the string holding the last character (empty for
the empty string). -/
def jsSliceLastOne (s : String) : String :=
  String.mk (s.data.drop (s.data.length - 1))

/-- JS `s.slice(0, -1)`: the string without its last character. -/
def jsDropLastOne (s : String) : String :=
  String.mk (s.data.take (s.data.length - 1))

/-- The method `Router.#normalizedPath`: `prefix + path`, and when the
concatenation ends in `/` that single trailing character is sliced
off. -/
def normalizedPath (pfx path : String) : String :=
  let s := pfx ++ path
  if jsSliceLastOne s = "/" then jsDropLastOne s else s

/-- The normalization as claim C1 words it ("removing a single trailing
'/' ... except the root path itself which is preserved as-is").  This
definition follows the claim's words, to be compared with
`normalizedPath`, which follows the source. -/
def claimNormalizedPath (pfx path : String) : String :=
  let s := pfx ++ path
  if s = "/" then s
  else if jsSliceLastOne s = "/" then jsDropLastOne s else s

/-- JS `Map.set` semantics on an association list: an existing key is
updated in place (insertion order kept), a new key is appended. -/
def mapSet (m : List (String × ExecutionContainer)) (k : String)
    (v : ExecutionContainer) : List (String × ExecutionContainer) :=
  if m.any (fun p => p.1 = k) then
    m.map (fun p => if p.1 = k then (k, v) else p)
  else m ++ [(k, v)]

/-- JS `Map.get` on the association-list model. -/
def mapGet (m : List (String × ExecutionContainer)) (k : String) :
    Option ExecutionContainer :=
  (m.find? (fun p => p.1 = k)).map (fun p => p.2)

/-- Number of entries stored under a key (a real JS `Map` always has at
most one; the association list makes the invariant explicit). -/
def countKey (m : List (String × ExecutionContainer)) (k : String) : Nat :=
  (m.filter (fun p => p.1 = k)).length

/-- The `Map` invariant: at most one entry per key. -/
def cacheNoDup (m : List (String × ExecutionContainer)) : Prop :=
  ∀ k, countKey m k ≤ 1

/-- The mutable state of a `Router` instance: `#containerCache`,
`#bootstrapMsg`, and the dispatch entries installed on the oak
superclass. -/
structure RouterState : Type where
  containerCache : List (String × ExecutionContainer)
  bootstrapMsg : String
  dispatch : List DispatchEntry
deriving DecidableEq, Repr

/-- The Router's ASCII logo (content irrelevant to every claim; kept
abstract as a fixed string). -/
def logoAscii : String := "DACTYL-LOGO"

/-- The state of `new Router()`: empty cache, bootstrap message seeded with the
logo, no dispatch entries installed yet. -/
def Router.init : RouterState :=
  { containerCache := []
    bootstrapMsg := logoAscii ++ "\n"
    dispatch := [] }

/-- The per-route body of `Router.register`'s `routes.forEach`: append
the route line to the bootstrap message and install the dispatch entry
at the normalized path. -/
def registerRouteStep (pfx : String) (container : ExecutionContainer)
    (st : RouterState) (route : RouteDefinition) : RouterState :=
  { st with
    bootstrapMsg := st.bootstrapMsg ++ "  [" ++ route.requestMethod.upper
      ++ "] " ++ route.path ++ "\n"
    dispatch := st.dispatch ++
      [{ requestMethod := route.requestMethod
         path := normalizedPath pfx route.path
         container := container
         route := route }] }

/-- The method `Router.register(controller)`, run on an explicit state.  The
result pairs the state after the call with the thrown error message, if
any: the source throws before touching any field, so on the error path
the state comes back unchanged.  `String(prefix)` is the identity on a
string prefix. -/
def registerRun (st : RouterState) (c : Controller) :
    RouterState × Option String :=
  match getControllerOwnMeta c with
  | none => (st, some "Attempted to register non-controller class to DactylRouter")
  | some meta =>
    let container : ExecutionContainer :=
      { meta := meta, controllerName := c.name }
    let st1 : RouterState :=
      { st with
        containerCache := mapSet st.containerCache meta.pfx container
        bootstrapMsg := st.bootstrapMsg ++ meta.pfx ++ "\n" }
    let st2 := meta.routes.foldl (registerRouteStep meta.pfx container) st1
    ({ st2 with bootstrapMsg := st2.bootstrapMsg ++ "" }, none)

/-- The paths at which dispatch entries are installed, in installation
order. -/
def dispatchPaths (st : RouterState) : List String :=
  st.dispatch.map (fun e => e.path)

/-- Dispatch lookup: the first installed entry matching the request
method and (already normalized) request path. -/
def findRoute (st : RouterState) (m : EHttpMethod) (p : String) :
    Option DispatchEntry :=
  st.dispatch.find? (fun e => e.requestMethod = m ∧ e.path = p)

/-- The `ExecutionResult` record from `types.ts`: `{ body, status }`, as consumed
by the dispatch handler (`result.body`, `result.status`). -/
structure ExecutionResult : Type where
  body : JSValue
  status : Nat

/-- The outgoing oak `Response` as the embedded code touches it:
`status`, `body`, and a residual field (headers) that the code under
verification never writes. -/
structure Response : Type where
  status : Nat
  body : JSValue
  headers : List (String × String)

/-- The request half of an oak context, untouched by the handlers under
verification. -/
structure RequestInfo : Type where
  method : EHttpMethod
  path : String
deriving DecidableEq, Repr

/-- An oak `Context`: request plus mutable response. -/
structure Ctx : Type where
  request : RequestInfo
  response : Response

/-- One observable write performed on a response, for stating in which
order a handler mutates it. -/
inductive ResponseWrite : Type
  | setBody (v : JSValue)
  | setStatus (n : Nat)

/-- The body literal of `Application.handleNotFound`:
`{ error: "Not Found", status: 404 }`. -/
def notFoundBody : JSValue :=
  JSValue.obj [("error", JSValue.str "Not Found"), ("status", JSValue.num 404)]

/-- The method `Application.handleNotFound(context)`: sets `response.status = 404`
and `response.body = { error: "Not Found", status: 404 }`. -/
def handleNotFound (ctx : Ctx) : Ctx :=
  { ctx with response :=
      { ctx.response with status := 404, body := notFoundBody } }

/-- The route handler closure installed by `Router.register`: awaits
`container.execute(route, context)`, then assigns
`context.response.body = result.body` and then
`context.response.status = result.status`.  The handler is returned
together with its write trace; `execute` is a parameter because the
execution container's internals live in a separate module. -/
def dispatchHandler (execute : RouteDefinition → Ctx → ExecutionResult)
    (route : RouteDefinition) (ctx : Ctx) : Ctx × List ResponseWrite :=
  let result := execute route ctx
  let ctx1 : Ctx := { ctx with response := { ctx.response with body := result.body } }
  let ctx2 : Ctx := { ctx1 with response := { ctx1.response with status := result.status } }
  (ctx2, [ResponseWrite.setBody result.body, ResponseWrite.setStatus result.status])

/-- The possible outcomes of invoking a controller action. -/
inductive Outcome : Type
  | ret (v : JSValue)
  | httpError (message : String) (code : Nat)
  | otherError

/-- Modelled from the spec: the result translation of
`ExecutionContainer.execute` step 5 (`execution_container.ts` is not in
the source tree).  A normal return `v` becomes `{ body: v, status:
200 }`; a recognized HTTP exception becomes
`{ body: { error: message, status: code }, status: code }`; any other
failure becomes the generic 500 result. -/
def translateOutcome : Outcome → ExecutionResult
  | Outcome.ret v => { body := v, status := 200 }
  | Outcome.httpError message code =>
    { body := JSValue.obj [("error", JSValue.str message), ("status", JSValue.num code)]
      status := code }
  | Outcome.otherError =>
    { body := JSValue.obj [("error", JSValue.str "Internal Server Error"), ("status", JSValue.num 500)]
      status := 500 }

/-- Modelled from the spec: `ExecutionContainer.execute` steps 2-5
(`execution_container.ts` is not in the source tree).  Before-hooks run
in declared order and the first short-circuiting hook's result is
returned; otherwise the action's outcome is translated. -/
def specExecute (hooks : List (Ctx → Option ExecutionResult))
    (action : Ctx → Outcome) (ctx : Ctx) : ExecutionResult :=
  match hooks.findSome? (fun hook => hook ctx) with
  | some r => r
  | none => translateOutcome (action ctx)

/-- JS whitespace accepted by `parseInt` before the number (the common
StrWhiteSpace characters). -/
def isJsSpace (c : Char) : Bool :=
  c == ' ' || c == '\t' || c == '\n' || c == '\r' || c == '\x0b' || c == '\x0c'

/-- Value of a decimal digit character. -/
def digitVal (c : Char) : Nat := c.toNat - '0'.toNat

/-- Decimal value of a digit sequence. -/
def digitsToNat (ds : List Char) : Nat :=
  ds.foldl (fun acc c => 10 * acc + digitVal c) 0

/-- JS `parseInt(s, 10)`: skip leading whitespace, read an optional
sign, then the longest prefix of decimal digits; `NaN` (here `none`)
when no digit follows. -/
def jsParseInt (s : String) : Option Int :=
  let cs := s.data.dropWhile isJsSpace
  let signAndRest : Int × List Char :=
    match cs with
    | '-' :: r => (-1, r)
    | '+' :: r => (1, r)
    | _ => (1, cs)
  let ds := signAndRest.2.takeWhile Char.isDigit
  if ds.isEmpty then none
  else some (signAndRest.1 * (digitsToNat ds : Int))

/-- JS array indexing `xs[i]` with an integer-or-NaN index: `undefined`
for NaN, negative, or out-of-range indices. -/
def jsIndex (xs : List JSValue) (i : Option Int) : JSValue :=
  match i with
  | none => JSValue.undefined
  | some k => if k < 0 then JSValue.undefined else xs.getD k.toNat JSValue.undefined

/-- The three records of `DinosaurService.#dinosaurs`. -/
def dinosaurRecords : List JSValue :=
  [JSValue.obj [("id", JSValue.num 0), ("name", JSValue.str "Tyrannosaurus Rex"),
     ("period", JSValue.str "Maastrichtian")],
   JSValue.obj [("id", JSValue.num 1), ("name", JSValue.str "Velociraptor"),
     ("period", JSValue.str "Cretaceous")],
   JSValue.obj [("id", JSValue.num 2), ("name", JSValue.str "Diplodocus"),
     ("period", JSValue.str "Oxfordian")]]

/-- The `DinosaurService` class from `src/example/DinosaurService.ts`: holds the
private `#dinosaurs` array. -/
structure DinosaurService : Type where
  dinosaurs : List JSValue

/-- A freshly constructed `DinosaurService` (field initializer). -/
def DinosaurService.new : DinosaurService :=
  { dinosaurs := dinosaurRecords }

/-- The method `DinosaurService.getAll()`: returns `this.#dinosaurs`. -/
def DinosaurService.getAll (svc : DinosaurService) : List JSValue :=
  svc.dinosaurs

/-- The method `DinosaurService.getById(id)`: returns
`this.#dinosaurs[parseInt(id, 10)]`. -/
def DinosaurService.getById (svc : DinosaurService) (id : String) : JSValue :=
  jsIndex svc.dinosaurs (jsParseInt id)

/-- One registration/instantiation event observable during application
bootstrap. -/
inductive AppEvent : Type
  | diRegister (name : String) (scope : EInjectionScope)
  | routerRegister (name : String)
  | instantiate (name : String)
deriving DecidableEq, Repr

/-- An injectable class as the `Application` constructor sees it: its
`name` and the scope deposited by `@Injectable` (read through
`getInjectableMetadata`). -/
structure Injectable : Type where
  name : String
  scope : EInjectionScope
deriving DecidableEq, Repr

/-- The `ApplicationConfig` record: the lists fed to the `Application`
constructor. -/
structure ApplicationConfig : Type where
  injectables : List Injectable
  controllers : List Controller
deriving DecidableEq, Repr

/-- The DI container's descriptor registry: name to scope. -/
structure DIState : Type where
  registry : List (String × EInjectionScope)
deriving DecidableEq, Repr

/-- Modelled from the spec: `DIContainer.register(type, scope, name)`
(`dependency_container.ts` is not in the source tree).  Adds an
injectable descriptor; fails with `DuplicateRegistrationError` when the
name is already registered; performs no instantiation — its only
effect is the registry insertion. -/
def DIContainer.register (di : DIState) (name : String)
    (scope : EInjectionScope) : Except String DIState :=
  if di.registry.any (fun p => p.1 = name) then
    Except.error "DuplicateRegistrationError"
  else Except.ok { registry := di.registry ++ [(name, scope)] }

/-- Modelled from the spec: `DIContainer.instantiateAllSingletons()`
(`dependency_container.ts` is not in the source tree) eagerly
constructs every Singleton-scoped descriptor; shown here as the
instantiation events it produces. -/
def DIContainer.instantiateAllSingletonsEvents (di : DIState) : List AppEvent :=
  (di.registry.filter (fun p => p.2 = EInjectionScope.singleton)).map
    (fun p => AppEvent.instantiate p.1)

/-- The constructor's first loop: register every injectable into the DI
container under its class name with its declared scope, in list
order.  Returns the DI state and the emitted events. -/
def registerInjectables (di : DIState) :
    List Injectable → Except String (DIState × List AppEvent)
  | [] => Except.ok (di, [])
  | i :: rest =>
    match DIContainer.register di i.name i.scope with
    | Except.error e => Except.error e
    | Except.ok di' =>
      match registerInjectables di' rest with
      | Except.error e => Except.error e
      | Except.ok (dif, evs) =>
        Except.ok (dif, AppEvent.diRegister i.name i.scope :: evs)

/-- The constructor's second loop: for each controller, read its
metadata (throwing when absent) and register it into the DI container
under its class name with the metadata's scope. -/
def registerControllersDI (di : DIState) :
    List Controller → Except String (DIState × List AppEvent)
  | [] => Except.ok (di, [])
  | c :: rest =>
    match getControllerOwnMeta c with
    | none => Except.error "Attempted to register non-controller class"
    | some meta =>
      match DIContainer.register di c.name meta.scope with
      | Except.error e => Except.error e
      | Except.ok di' =>
        match registerControllersDI di' rest with
        | Except.error e => Except.error e
        | Except.ok (dif, evs) =>
          Except.ok (dif, AppEvent.diRegister c.name meta.scope :: evs)

/-- The constructor's third loop: register every controller with the
freshly created Router. -/
def registerControllersRouter (rt : RouterState) :
    List Controller → Except String (RouterState × List AppEvent)
  | [] => Except.ok (rt, [])
  | c :: rest =>
    match registerRun rt c with
    | (_, some e) => Except.error e
    | (rt', none) =>
      match registerControllersRouter rt' rest with
      | Except.error e => Except.error e
      | Except.ok (rtf, evs) =>
        Except.ok (rtf, AppEvent.routerRegister c.name :: evs)

/-- The `Application` constructor: DI-register all injectables, then
DI-register all controllers, then create the Router and register every
controller with it; a throw anywhere aborts construction.  `di0` is
the DI container's registry at entry (empty for a fresh process). -/
def Application.construct (di0 : DIState) (cfg : ApplicationConfig) :
    Except String (DIState × RouterState × List AppEvent) :=
  match registerInjectables di0 cfg.injectables with
  | Except.error e => Except.error e
  | Except.ok (di1, evs1) =>
    match registerControllersDI di1 cfg.controllers with
    | Except.error e => Except.error e
    | Except.ok (di2, evs2) =>
      match registerControllersRouter Router.init cfg.controllers with
      | Except.error e => Except.error e
      | Except.ok (rt, evs3) => Except.ok (di2, rt, evs1 ++ evs2 ++ evs3)

/-- Whether an `Except` computation ended in a thrown error. -/
def isError {ε α : Type} : Except ε α → Bool
  | Except.error _ => true
  | Except.ok _ => false

/-- Whether a bootstrap event is an instantiation. -/
def isInstantiateEvent : AppEvent → Bool
  | AppEvent.instantiate _ => true
  | _ => false

/-- Whether a bootstrap event is a DI registration. -/
def isDiRegisterEvent : AppEvent → Bool
  | AppEvent.diRegister _ _ => true
  | _ => false

/-- Whether a bootstrap event is a Router registration. -/
def isRouterRegisterEvent : AppEvent → Bool
  | AppEvent.routerRegister _ => true
  | _ => false

/-- The built-in middleware an `Application` user can enable. -/
inductive MW : Type
  | logger
  | timing
  | cors
deriving DecidableEq, Repr

/-- The `Application` state that `run` reads: the middleware list built
by the `use*` methods (the router itself is irrelevant to the `run`
trace). -/
structure ApplicationState : Type where
  middleware : List MW
deriving DecidableEq, Repr

/-- The method `Application.useLogger()`: pushes the logger middleware. -/
def ApplicationState.useLogger (a : ApplicationState) : ApplicationState :=
  { a with middleware := a.middleware ++ [MW.logger] }

/-- The method `Application.useTiming()`: pushes the timing middleware. -/
def ApplicationState.useTiming (a : ApplicationState) : ApplicationState :=
  { a with middleware := a.middleware ++ [MW.timing] }

/-- The method `Application.useCors()`: pushes the CORS middleware. -/
def ApplicationState.useCors (a : ApplicationState) : ApplicationState :=
  { a with middleware := a.middleware ++ [MW.cors] }

/-- The observable steps `Application.run(port)` performs, in order. -/
inductive RunEvent : Type
  | useMiddleware (m : MW)
  | useRouterMiddleware
  | useNotFound
  | logBootstrap
  | logRunning (port : Nat)
  | instantiateSingletons
  | listen (port : Nat)
deriving DecidableEq, Repr

/-- The method `Application.run(port)` as its step trace: install each user-added
middleware (in push order), install the router's dispatch middleware,
install the 404 fallback, print the two banners, call
`DIContainer.instantiateAllSingletons()`, then listen on `port`. -/
def ApplicationState.run (a : ApplicationState) (port : Nat) : List RunEvent :=
  a.middleware.map RunEvent.useMiddleware ++
    [RunEvent.useRouterMiddleware, RunEvent.useNotFound, RunEvent.logBootstrap,
     RunEvent.logRunning port, RunEvent.instantiateSingletons, RunEvent.listen port]

/-- Test fixture: a controller whose prefix is empty and whose single
route is the root path, so that the full path is exactly "/". -/
def rootController : Controller :=
  { name := "RootController"
    meta := some
      { pfx := ""
        routes := [{ path := "/", requestMethod := EHttpMethod.get, methodName := "index" }]
        scope := EInjectionScope.singleton } }

/-- Test fixture: a class with no controller metadata. -/
def noMetaController : Controller :=
  { name := "NotAController", meta := none }

/-- Test fixture: a config whose only controller lacks metadata. -/
def badConfig : ApplicationConfig :=
  { injectables := [], controllers := [noMetaController] }

/-- Test fixture: the example dinosaur controller of the spec — prefix
`/dinosaurs`, one GET route at `/` bound to `getAll`. -/
def dinosaurRoute : RouteDefinition :=
  { path := "/", requestMethod := EHttpMethod.get, methodName := "getAll" }

/-- Metadata of the dinosaur controller fixture. -/
def dinosaurControllerMeta : ControllerMetadata :=
  { pfx := "/dinosaurs", routes := [dinosaurRoute], scope := EInjectionScope.singleton }

/-- The dinosaur controller fixture. -/
def dinosaurController : Controller :=
  { name := "DinosaurController", meta := some dinosaurControllerMeta }

/-- Test fixture: a second controller sharing the dinosaur prefix, for
the duplicate-prefix claims. -/
def dinosaurControllerV2 : Controller :=
  { name := "DinosaurControllerV2"
    meta := some { pfx := "/dinosaurs", routes := [], scope := EInjectionScope.transient } }

/-- Test fixture: the example injectable service. -/
def dinosaurServiceInjectable : Injectable :=
  { name := "DinosaurService", scope := EInjectionScope.singleton }

/-- Test fixture: a config with one injectable and one controller. -/
def sampleConfig : ApplicationConfig :=
  { injectables := [dinosaurServiceInjectable]
    controllers := [dinosaurController] }

/-- The bootstrap events of constructing an `Application` over
`sampleConfig`. -/
def sampleEvents : List AppEvent :=
  [AppEvent.diRegister "DinosaurService" EInjectionScope.singleton,
   AppEvent.diRegister "DinosaurController" EInjectionScope.singleton,
   AppEvent.routerRegister "DinosaurController"]

end D2x

namespace D2x

/-- The `routes.forEach` loop never touches the container cache, and it
appends exactly one dispatch entry per route, in route order. -/
theorem routesFold_spec (pfx : String) (container : ExecutionContainer)
    (routes : List RouteDefinition) (st : RouterState) :
    (routes.foldl (registerRouteStep pfx container) st).containerCache
        = st.containerCache ∧
    (routes.foldl (registerRouteStep pfx container) st).dispatch
        = st.dispatch ++ routes.map (fun route =>
            { requestMethod := route.requestMethod
              path := normalizedPath pfx route.path
              container := container
              route := route }) := by
  induction routes generalizing st with
  | nil => simp
  | cons r rs ih =>
    simp only [List.foldl_cons, List.map_cons]
    refine ⟨(ih _).1, ?_⟩
    rw [(ih _).2]
    simp [registerRouteStep, List.append_assoc]

/-- On a controller carrying metadata, `register` succeeds; its cache
update is `mapSet` at the prefix and its dispatch update appends one
entry per route at the normalized path. -/
theorem registerRun_some (st : RouterState) (c : Controller)
    (m : ControllerMetadata) (h : c.meta = some m) :
    (registerRun st c).2 = none ∧
    (registerRun st c).1.containerCache
        = mapSet st.containerCache m.pfx { meta := m, controllerName := c.name } ∧
    (registerRun st c).1.dispatch
        = st.dispatch ++ m.routes.map (fun route =>
            { requestMethod := route.requestMethod
              path := normalizedPath m.pfx route.path
              container := { meta := m, controllerName := c.name }
              route := route }) := by
  simp only [registerRun, getControllerOwnMeta, h]
  refine ⟨trivial, ?_, ?_⟩
  · exact (routesFold_spec m.pfx _ m.routes _).1
  · exact (routesFold_spec m.pfx _ m.routes _).2


/-- Rebuilding a string from its character list is the identity. -/
theorem string_mk_data (s : String) : String.mk s.data = s := by
  cases s with
  | mk d => rfl

/-- The character list of `"/"`. -/
theorem data_slash : ("/" : String).data = ['/'] := rfl

/-- Slicing the last character of a string that ends in `/` yields
`"/"`. -/
theorem jsSliceLastOne_concatSlash (t : String) :
    jsSliceLastOne (t ++ "/") = "/" := by
  unfold jsSliceLastOne
  rw [String.data_append, data_slash]
  simp [List.length_append]

/-- Dropping the last character of a string that ends in `/` yields the
string before the slash. -/
theorem jsDropLastOne_concatSlash (t : String) :
    jsDropLastOne (t ++ "/") = t := by
  unfold jsDropLastOne
  rw [String.data_append, data_slash]
  simp [List.length_append, string_mk_data]

/-- When the character list does not end in `/`, the one-character tail
slice is not `"/"`. -/
theorem dropLast_singleton_ne (d : List Char) (h : d.getLast? ≠ some '/') :
    String.mk (d.drop (d.length - 1)) ≠ "/" := by
  induction d using List.reverseRecOn with
  | nil =>
    intro hc
    exact (by decide : String.mk [] ≠ "/") hc
  | append_singleton xs x _ =>
    rw [List.getLast?_concat] at h
    intro hc
    have hdrop : (xs ++ [x]).drop ((xs ++ [x]).length - 1) = [x] := by
      simp [List.length_append]
    rw [hdrop] at hc
    have hx : ([x] : List Char) = ['/'] := congrArg String.data hc
    have : x = '/' := by injection hx
    exact h (by rw [this])

/-- The method `#normalizedPath` on a concatenation ending in `/` drops exactly
that trailing slash. -/
theorem normalizedPath_concatSlash (p q t : String) (h : p ++ q = t ++ "/") :
    normalizedPath p q = t := by
  show (if jsSliceLastOne (p ++ q) = "/" then jsDropLastOne (p ++ q) else p ++ q) = t
  rw [h, if_pos (jsSliceLastOne_concatSlash t)]
  exact jsDropLastOne_concatSlash t

/-- The method `#normalizedPath` on a concatenation not ending in `/` is the plain
concatenation. -/
theorem normalizedPath_noSlash (p q : String)
    (h : (p ++ q).data.getLast? ≠ some '/') :
    normalizedPath p q = p ++ q := by
  show (if jsSliceLastOne (p ++ q) = "/" then jsDropLastOne (p ++ q) else p ++ q) = p ++ q
  rw [if_neg]
  show ¬ (String.mk ((p ++ q).data.drop ((p ++ q).data.length - 1)) = "/")
  exact dropLast_singleton_ne (p ++ q).data h

/-- C1 counterexample: for the controller whose prefix is `""` and
whose route path is `"/"` the full path is the root path `"/"`, yet
`register` installs the dispatch entry at `""` — the root path is NOT
preserved as-is, contradicting the claimed exception (the claim's own
normalization, `claimNormalizedPath`, keeps `"/"`). -/
theorem C1_counterexample :
    dispatchPaths (registerRun Router.init rootController).1 = [""] ∧
    claimNormalizedPath "" "/" = "/" ∧
    ("" : String) ≠ "/" := by
  refine ⟨rfl, rfl, by decide⟩

/-- C1 (amended): `Router.register` installs each route's dispatch
entry at the path `prefix + path` with a single trailing `/` removed
whenever the concatenation ends in one — including the root path `"/"`
itself, which becomes the empty string (no exception); in particular
`"/dino" + "/"` yields `"/dino"` and `"/dino" + "/all/"` yields
`"/dino/all"`. -/
theorem C1_register_normalizedPaths (st : RouterState) (c : Controller)
    (m : ControllerMetadata) (h : c.meta = some m) :
    dispatchPaths (registerRun st c).1
        = dispatchPaths st ++ m.routes.map (fun r => normalizedPath m.pfx r.path) ∧
    (∀ p q t : String, p ++ q = t ++ "/" → normalizedPath p q = t) ∧
    (∀ p q : String, (p ++ q).data.getLast? ≠ some '/' → normalizedPath p q = p ++ q) ∧
    normalizedPath "" "/" = "" ∧
    normalizedPath "/dino" "/" = "/dino" ∧
    normalizedPath "/dino" "/all/" = "/dino/all" := by
  refine ⟨?_, normalizedPath_concatSlash, normalizedPath_noSlash, rfl, rfl, rfl⟩
  have hd := (registerRun_some st c m h).2.2
  unfold dispatchPaths
  rw [hd, List.map_append, List.map_map]
  rfl

/-- C1 witness: the amended theorem applied to the dinosaur controller
on a fresh router. -/
theorem C1_witness :
    dispatchPaths (registerRun Router.init dinosaurController).1 = ["/dinosaurs"] := by
  have h := (C1_register_normalizedPaths Router.init dinosaurController
    dinosaurControllerMeta rfl).1
  rw [h]
  rfl

/-- A controller without metadata anywhere in the list makes the
constructor's DI-registration loop over controllers throw. -/
theorem registerControllersDI_noMeta (c : Controller) (hm : c.meta = none) :
    ∀ (cs : List Controller) (di : DIState), c ∈ cs →
      isError (registerControllersDI di cs) = true := by
  intro cs
  induction cs with
  | nil => intro di hc; cases hc
  | cons c0 rest ih =>
    intro di hc
    cases hmeta : getControllerOwnMeta c0 with
    | none => simp [registerControllersDI, hmeta, isError]
    | some m0 =>
      rcases List.mem_cons.mp hc with hc0 | hcr
      · subst hc0
        rw [getControllerOwnMeta, hm] at hmeta
        cases hmeta
      · cases hr : DIContainer.register di c0.name m0.scope with
        | error e => simp [registerControllersDI, hmeta, hr, isError]
        | ok di' =>
          have hrec := ih di' hcr
          cases hx : registerControllersDI di' rest with
          | error e => simp [registerControllersDI, hmeta, hr, hx, isError]
          | ok pr =>
            rw [hx] at hrec
            simp [isError] at hrec

/-- A controller without metadata makes the whole `Application`
constructor throw. -/
theorem construct_noMeta (di0 : DIState) (cfg : ApplicationConfig)
    (c : Controller) (hc : c ∈ cfg.controllers) (hm : c.meta = none) :
    isError (Application.construct di0 cfg) = true := by
  unfold Application.construct
  cases h1 : registerInjectables di0 cfg.injectables with
  | error e => simp [isError]
  | ok pr1 =>
    obtain ⟨di1, evs1⟩ := pr1
    have h2 := registerControllersDI_noMeta c hm cfg.controllers di1 hc
    dsimp only
    cases hx : registerControllersDI di1 cfg.controllers with
    | error e => rfl
    | ok pr2 =>
      rw [hx] at h2
      simp [isError] at h2

/-- C2: `Router.register` throws exactly when the controller carries no
metadata; on the throwing path the router state (container cache,
dispatch entries, bootstrap message) is returned untouched; and the
`Application` constructor throws whenever one of its configured
controllers carries no metadata. -/
theorem C2_register_throws (st : RouterState) (c : Controller)
    (di0 : DIState) (cfg : ApplicationConfig) (c' : Controller) :
    ((registerRun st c).2.isSome ↔ c.meta = none) ∧
    (c.meta = none → (registerRun st c).1 = st) ∧
    (c' ∈ cfg.controllers → c'.meta = none →
      isError (Application.construct di0 cfg) = true) := by
  refine ⟨?_, ?_, fun hc hm => construct_noMeta di0 cfg c' hc hm⟩
  · cases hmeta : c.meta with
    | none => simp [registerRun, getControllerOwnMeta, hmeta]
    | some m => simp [registerRun, getControllerOwnMeta, hmeta]
  · intro hm
    simp [registerRun, getControllerOwnMeta, hm]

/-- C2 witness: the no-metadata fixture throws out of both `register`
(leaving a fresh router untouched) and the constructor. -/
theorem C2_witness :
    (registerRun Router.init noMetaController).2.isSome = true ∧
    (registerRun Router.init noMetaController).1 = Router.init ∧
    isError (Application.construct { registry := [] } badConfig) = true := by
  have h := C2_register_throws Router.init noMetaController { registry := [] }
    badConfig noMetaController
  exact ⟨h.1.mpr rfl, h.2.1 rfl, h.2.2 (by simp [badConfig]) rfl⟩

/-- C3: whatever the response's prior status, body and headers, the
not-found handler sets status 404 and the body
`{ error: "Not Found", status: 404 }`, and touches nothing else. -/
theorem C3_handleNotFound (ctx : Ctx) :
    (handleNotFound ctx).response.status = 404 ∧
    (handleNotFound ctx).response.body
        = JSValue.obj [("error", JSValue.str "Not Found"), ("status", JSValue.num 404)] ∧
    (handleNotFound ctx).response.headers = ctx.response.headers ∧
    (handleNotFound ctx).request = ctx.request :=
  ⟨rfl, rfl, rfl, rfl⟩

/-- C5: the installed route handler feeds `route` and the context to
the owning container's `execute`, writes the returned result's body and
then its status onto the response, and modifies nothing else. -/
theorem C5_dispatchHandler (execute : RouteDefinition → Ctx → ExecutionResult)
    (route : RouteDefinition) (ctx : Ctx) :
    (dispatchHandler execute route ctx).1.response.body = (execute route ctx).body ∧
    (dispatchHandler execute route ctx).1.response.status = (execute route ctx).status ∧
    (dispatchHandler execute route ctx).1.response.headers = ctx.response.headers ∧
    (dispatchHandler execute route ctx).1.request = ctx.request ∧
    (dispatchHandler execute route ctx).2
        = [ResponseWrite.setBody (execute route ctx).body,
           ResponseWrite.setStatus (execute route ctx).status] :=
  ⟨rfl, rfl, rfl, rfl, rfl⟩

/-- C4: `run(port)` performs the user-added middleware installs first,
in push order; the router's dispatch middleware comes right after them,
then the not-found fallback; `instantiateAllSingletons` happens exactly
once, and before listening on the port begins. -/
theorem C4_run_order (a : ApplicationState) (port : Nat) :
    (a.run port).take a.middleware.length
        = a.middleware.map RunEvent.useMiddleware ∧
    (a.run port)[a.middleware.length]? = some RunEvent.useRouterMiddleware ∧
    (a.run port)[a.middleware.length + 1]? = some RunEvent.useNotFound ∧
    (a.run port)[a.middleware.length + 4]? = some RunEvent.instantiateSingletons ∧
    (a.run port)[a.middleware.length + 5]? = some (RunEvent.listen port) ∧
    (a.run port).length = a.middleware.length + 6 ∧
    (a.run port).count RunEvent.instantiateSingletons = 1 := by
  have hlen : (a.middleware.map RunEvent.useMiddleware).length = a.middleware.length :=
    List.length_map _ _
  unfold ApplicationState.run
  refine ⟨List.take_left' hlen, ?_, ?_, ?_, ?_, ?_, ?_⟩
  · rw [List.getElem?_append_right (le_of_eq hlen)]
    simp [hlen]
  · rw [List.getElem?_append_right (by omega)]
    simp [hlen]
  · rw [List.getElem?_append_right (by omega)]
    simp [hlen]
  · rw [List.getElem?_append_right (by omega)]
    simp [hlen]
  · simp [List.length_append, hlen]
  · rw [List.count_append]
    have h0 : (a.middleware.map RunEvent.useMiddleware).count
        RunEvent.instantiateSingletons = 0 := by
      refine List.count_eq_zero.mpr ?_
      simp
    rw [h0]
    simp [List.count_cons]

/-- Looking up the updated key after an in-place `Map.set` update. -/
theorem mapGet_map_upd (k : String) (v : ExecutionContainer) :
    ∀ m : List (String × ExecutionContainer),
      mapGet (m.map (fun p => if p.1 = k then (k, v) else p)) k
        = if m.any (fun p => p.1 = k) then some v else none := by
  intro m
  induction m with
  | nil => rfl
  | cons p ps ih =>
    by_cases h : p.1 = k
    · simp [mapGet, h]
    · simp only [List.map_cons, List.any_cons]
      rw [if_neg h]
      simp only [mapGet] at ih ⊢
      rw [List.find?_cons_of_neg _ (by simpa using h)]
      rw [ih]
      simp only [decide_eq_false h, Bool.false_or]

/-- Looking up a freshly appended key that was absent before. -/
theorem mapGet_append_new (k : String) (v : ExecutionContainer) :
    ∀ m : List (String × ExecutionContainer),
      m.any (fun p => p.1 = k) = false →
      mapGet (m ++ [(k, v)]) k = some v := by
  intro m
  induction m with
  | nil => intro _; simp [mapGet]
  | cons p ps ih =>
    intro h
    simp only [List.any_cons, Bool.or_eq_false_iff] at h
    have hp : ¬ p.1 = k := by simpa using h.1
    simp only [List.cons_append, mapGet]
    rw [List.find?_cons_of_neg _ (by simpa using hp)]
    exact ih h.2

/-- A `Map.set` followed by `Map.get` at the same key returns the value
just stored. -/
theorem mapGet_mapSet_self (m : List (String × ExecutionContainer))
    (k : String) (v : ExecutionContainer) :
    mapGet (mapSet m k v) k = some v := by
  unfold mapSet
  cases hany : m.any (fun p => p.1 = k) with
  | true => rw [if_pos rfl, mapGet_map_upd, hany, if_pos rfl]
  | false =>
    rw [if_neg Bool.false_ne_true]
    exact mapGet_append_new k v m hany

/-- The in-place update keeps the number of entries under the updated
key. -/
theorem countKey_map_upd_self (k : String) (v : ExecutionContainer) :
    ∀ m : List (String × ExecutionContainer),
      countKey (m.map (fun p => if p.1 = k then (k, v) else p)) k = countKey m k := by
  intro m
  induction m with
  | nil => rfl
  | cons p ps ih =>
    by_cases h : p.1 = k
    · simp only [List.map_cons, if_pos h, countKey] at ih ⊢
      rw [List.filter_cons_of_pos (by simp), List.filter_cons_of_pos (by simpa using h)]
      simpa using ih
    · simp only [List.map_cons, if_neg h, countKey] at ih ⊢
      rw [List.filter_cons_of_neg (by simpa using h), List.filter_cons_of_neg (by simpa using h)]
      exact ih

/-- The in-place update never increases the number of entries under any
other key. -/
theorem countKey_map_upd_other (k : String) (v : ExecutionContainer)
    (k' : String) (hne : k' ≠ k) :
    ∀ m : List (String × ExecutionContainer),
      countKey (m.map (fun p => if p.1 = k then (k, v) else p)) k' ≤ countKey m k' := by
  intro m
  induction m with
  | nil => exact Nat.le_refl 0
  | cons p ps ih =>
    by_cases h : p.1 = k
    · simp only [List.map_cons, if_pos h, countKey] at ih ⊢
      rw [List.filter_cons_of_neg (by simpa using (Ne.symm hne))]
      by_cases h' : p.1 = k'
      · rw [List.filter_cons_of_pos (by simpa using h')]
        exact Nat.le_succ_of_le ih
      · rw [List.filter_cons_of_neg (by simpa using h')]
        exact ih
    · simp only [List.map_cons, if_neg h, countKey] at ih ⊢
      by_cases h' : p.1 = k'
      · rw [List.filter_cons_of_pos (by simpa using h'), List.filter_cons_of_pos (by simpa using h')]
        simpa using ih
      · rw [List.filter_cons_of_neg (by simpa using h'), List.filter_cons_of_neg (by simpa using h')]
        exact ih

/-- Appending an entry adds one to the count of its key and nothing to
any other. -/
theorem countKey_append_single (k : String) (v : ExecutionContainer)
    (k' : String) (m : List (String × ExecutionContainer)) :
    countKey (m ++ [(k, v)]) k' = countKey m k' + (if k' = k then 1 else 0) := by
  unfold countKey
  rw [List.filter_append, List.length_append]
  by_cases h : k' = k
  · rw [if_pos h, List.filter_cons_of_pos (by simpa using h.symm)]
    rfl
  · rw [if_neg h, List.filter_cons_of_neg (by simpa using fun e => h e.symm)]
    rfl

/-- A key on which `any` fails has no entries. -/
theorem countKey_zero_of_any_false (k : String) :
    ∀ m : List (String × ExecutionContainer),
      m.any (fun p => p.1 = k) = false → countKey m k = 0 := by
  intro m
  induction m with
  | nil => intro _; rfl
  | cons p ps ih =>
    intro h
    simp only [List.any_cons, Bool.or_eq_false_iff] at h
    unfold countKey
    rw [List.filter_cons_of_neg (by simpa using h.1)]
    exact ih h.2

/-- A key on which `any` succeeds has at least one entry. -/
theorem countKey_pos_of_any_true (k : String) :
    ∀ m : List (String × ExecutionContainer),
      m.any (fun p => p.1 = k) = true → 1 ≤ countKey m k := by
  intro m
  induction m with
  | nil => intro h; cases h
  | cons p ps ih =>
    intro h
    unfold countKey
    by_cases hp : p.1 = k
    · rw [List.filter_cons_of_pos (by simpa using hp)]
      exact Nat.succ_le_succ (Nat.zero_le _)
    · simp only [List.any_cons, Bool.or_eq_true] at h
      rcases h with h | h
      · exact absurd (by simpa using h) hp
      · rw [List.filter_cons_of_neg (by simpa using hp)]
        exact ih h

/-- After `Map.set`, the stored key has exactly one entry (given the
map invariant on entry). -/
theorem countKey_mapSet_self (m : List (String × ExecutionContainer))
    (k : String) (v : ExecutionContainer) (h : countKey m k ≤ 1) :
    countKey (mapSet m k v) k = 1 := by
  unfold mapSet
  cases hany : m.any (fun p => p.1 = k) with
  | true =>
    rw [if_pos rfl, countKey_map_upd_self]
    exact Nat.le_antisymm h (countKey_pos_of_any_true k m hany)
  | false =>
    rw [if_neg Bool.false_ne_true, countKey_append_single]
    rw [countKey_zero_of_any_false k m hany]
    simp

/-- The `Map.set` update preserves the at-most-one-entry-per-key invariant. -/
theorem cacheNoDup_mapSet (m : List (String × ExecutionContainer))
    (k : String) (v : ExecutionContainer) (h : cacheNoDup m) :
    cacheNoDup (mapSet m k v) := by
  intro k'
  by_cases hk : k' = k
  · subst hk
    exact Nat.le_of_eq (countKey_mapSet_self m k' v (h k'))
  · unfold mapSet
    cases hany : m.any (fun p => p.1 = k) with
    | true =>
      rw [if_pos rfl]
      exact Nat.le_trans (countKey_map_upd_other k v k' hk m) (h k')
    | false =>
      rw [if_neg Bool.false_ne_true, countKey_append_single]
      rw [if_neg hk]
      exact h k'

/-- C7: a successful `register` stores in the container cache exactly
one execution container under the controller's prefix — the one built
from that controller's metadata and class name — and keeps the
one-container-per-prefix invariant. -/
theorem C7_containerCache (st : RouterState) (c : Controller)
    (m : ControllerMetadata) (h : c.meta = some m)
    (hnd : cacheNoDup st.containerCache) :
    (registerRun st c).2 = none ∧
    mapGet (registerRun st c).1.containerCache m.pfx
        = some { meta := m, controllerName := c.name } ∧
    countKey (registerRun st c).1.containerCache m.pfx = 1 ∧
    cacheNoDup (registerRun st c).1.containerCache := by
  obtain ⟨h1, h2, -⟩ := registerRun_some st c m h
  refine ⟨h1, ?_, ?_, ?_⟩
  · rw [h2]; exact mapGet_mapSet_self _ _ _
  · rw [h2]; exact countKey_mapSet_self _ _ _ (hnd m.pfx)
  · rw [h2]; exact cacheNoDup_mapSet _ _ _ hnd

/-- C7 witness: registering the dinosaur controller on a fresh router
caches exactly its container under `/dinosaurs`. -/
theorem C7_witness :
    mapGet (registerRun Router.init dinosaurController).1.containerCache "/dinosaurs"
        = some { meta := dinosaurControllerMeta, controllerName := "DinosaurController" } ∧
    countKey (registerRun Router.init dinosaurController).1.containerCache "/dinosaurs" = 1 := by
  have h := C7_containerCache Router.init dinosaurController dinosaurControllerMeta rfl
    (fun _ => Nat.zero_le 1)
  exact ⟨h.2.1, h.2.2.1⟩

/-- C10: registering a second controller with an already-used prefix
does not throw; the second registration overwrites the cached execution
container for that prefix (last registration wins). -/
theorem C10_duplicate_replaces (st : RouterState) (c1 c2 : Controller)
    (m1 m2 : ControllerMetadata) (h1 : c1.meta = some m1)
    (h2 : c2.meta = some m2) (hp : m1.pfx = m2.pfx) :
    (registerRun st c1).2 = none ∧
    (registerRun (registerRun st c1).1 c2).2 = none ∧
    mapGet (registerRun (registerRun st c1).1 c2).1.containerCache m1.pfx
        = some { meta := m2, controllerName := c2.name } := by
  obtain ⟨e1, -, -⟩ := registerRun_some st c1 m1 h1
  obtain ⟨e2, c2cache, -⟩ := registerRun_some (registerRun st c1).1 c2 m2 h2
  refine ⟨e1, e2, ?_⟩
  rw [c2cache, hp]
  exact mapGet_mapSet_self _ _ _

/-- C10 witness: the two dinosaur-prefix fixtures registered in
sequence; the cache ends holding the second container. -/
theorem C10_witness :
    (registerRun Router.init dinosaurController).2 = none ∧
    (registerRun (registerRun Router.init dinosaurController).1 dinosaurControllerV2).2 = none ∧
    mapGet (registerRun (registerRun Router.init dinosaurController).1
        dinosaurControllerV2).1.containerCache "/dinosaurs"
      = some { meta := { pfx := "/dinosaurs", routes := [], scope := EInjectionScope.transient }
               controllerName := "DinosaurControllerV2" } :=
  C10_duplicate_replaces Router.init dinosaurController dinosaurControllerV2
    dinosaurControllerMeta
    { pfx := "/dinosaurs", routes := [], scope := EInjectionScope.transient }
    rfl rfl rfl

/-- The injectable-registration loop, when it succeeds, emits exactly
one DI-registration event per injectable, in list order, each carrying
the injectable's class name and declared scope. -/
theorem registerInjectables_ok :
    ∀ (injs : List Injectable) (di dif : DIState) (evs : List AppEvent),
      registerInjectables di injs = Except.ok (dif, evs) →
      evs = injs.map (fun i => AppEvent.diRegister i.name i.scope) := by
  intro injs
  induction injs with
  | nil =>
    intro di dif evs h
    simp only [registerInjectables, Except.ok.injEq, Prod.mk.injEq] at h
    exact h.2.symm
  | cons i rest ih =>
    intro di dif evs h
    cases hr : DIContainer.register di i.name i.scope with
    | error e =>
      simp only [registerInjectables, hr] at h
      exact Except.noConfusion h
    | ok di' =>
      cases hrec : registerInjectables di' rest with
      | error e =>
        simp only [registerInjectables, hr, hrec] at h
        exact Except.noConfusion h
      | ok pr =>
        obtain ⟨dif', evs'⟩ := pr
        simp only [registerInjectables, hr, hrec, Except.ok.injEq, Prod.mk.injEq] at h
        obtain ⟨-, h2⟩ := h
        subst h2
        rw [List.map_cons, ih di' dif' evs' hrec]

/-- The controller-DI-registration loop, when it succeeds, emits one
DI-registration event per controller, pointwise in order: each
controller has metadata and its event carries the controller's class
name and the metadata's scope.  Every emitted event is a
DI-registration. -/
theorem registerControllersDI_ok :
    ∀ (cs : List Controller) (di dif : DIState) (evs : List AppEvent),
      registerControllersDI di cs = Except.ok (dif, evs) →
      List.Forall₂ (fun (c : Controller) (e : AppEvent) =>
          ∃ m, c.meta = some m ∧ e = AppEvent.diRegister c.name m.scope) cs evs ∧
      ∀ e ∈ evs, isDiRegisterEvent e = true := by
  intro cs
  induction cs with
  | nil =>
    intro di dif evs h
    simp only [registerControllersDI, Except.ok.injEq, Prod.mk.injEq] at h
    obtain ⟨-, h2⟩ := h
    subst h2
    exact ⟨List.Forall₂.nil, by intro e he; cases he⟩
  | cons c rest ih =>
    intro di dif evs h
    cases hmeta : getControllerOwnMeta c with
    | none =>
      simp only [registerControllersDI, hmeta] at h
      exact Except.noConfusion h
    | some m =>
      cases hr : DIContainer.register di c.name m.scope with
      | error e =>
        simp only [registerControllersDI, hmeta, hr] at h
        exact Except.noConfusion h
      | ok di' =>
        cases hrec : registerControllersDI di' rest with
        | error e =>
          simp only [registerControllersDI, hmeta, hr, hrec] at h
          exact Except.noConfusion h
        | ok pr =>
          obtain ⟨dif', evs'⟩ := pr
          simp only [registerControllersDI, hmeta, hr, hrec, Except.ok.injEq,
            Prod.mk.injEq] at h
          obtain ⟨-, h2⟩ := h
          subst h2
          obtain ⟨hrel, hall⟩ := ih di' dif' evs' hrec
          refine ⟨List.Forall₂.cons ⟨m, hmeta, rfl⟩ hrel, ?_⟩
          intro e he
          rcases List.mem_cons.mp he with he0 | her
          · subst he0; rfl
          · exact hall e her

/-- The router-registration loop, when it succeeds, emits one
router-registration event per controller, in list order. -/
theorem registerControllersRouter_ok :
    ∀ (cs : List Controller) (rt rtf : RouterState) (evs : List AppEvent),
      registerControllersRouter rt cs = Except.ok (rtf, evs) →
      evs = cs.map (fun c => AppEvent.routerRegister c.name) := by
  intro cs
  induction cs with
  | nil =>
    intro rt rtf evs h
    simp only [registerControllersRouter, Except.ok.injEq, Prod.mk.injEq] at h
    exact h.2.symm
  | cons c rest ih =>
    intro rt rtf evs h
    cases hp : registerRun rt c with
    | mk rt1 err =>
      cases err with
      | some e =>
        simp only [registerControllersRouter, hp] at h
        exact Except.noConfusion h
      | none =>
        cases hrec : registerControllersRouter rt1 rest with
        | error e =>
          simp only [registerControllersRouter, hp, hrec] at h
          exact Except.noConfusion h
        | ok pr =>
          obtain ⟨rtf', evs'⟩ := pr
          simp only [registerControllersRouter, hp, hrec, Except.ok.injEq,
            Prod.mk.injEq] at h
          obtain ⟨-, h2⟩ := h
          subst h2
          rw [List.map_cons, ih rt1 rtf' evs' hrec]

/-- A successful constructor run decomposes into its three loops, with
the event trace being their concatenation in order. -/
theorem construct_ok_decomp (di0 : DIState) (cfg : ApplicationConfig)
    (di : DIState) (rt : RouterState) (evs : List AppEvent)
    (h : Application.construct di0 cfg = Except.ok (di, rt, evs)) :
    ∃ di1 evs1 evs2 evs3,
      registerInjectables di0 cfg.injectables = Except.ok (di1, evs1) ∧
      registerControllersDI di1 cfg.controllers = Except.ok (di, evs2) ∧
      registerControllersRouter Router.init cfg.controllers = Except.ok (rt, evs3) ∧
      evs = evs1 ++ evs2 ++ evs3 := by
  unfold Application.construct at h
  cases h1 : registerInjectables di0 cfg.injectables with
  | error e => rw [h1] at h; cases h
  | ok pr1 =>
    obtain ⟨di1, evs1⟩ := pr1
    rw [h1] at h
    dsimp only at h
    cases h2 : registerControllersDI di1 cfg.controllers with
    | error e => rw [h2] at h; cases h
    | ok pr2 =>
      obtain ⟨di2, evs2⟩ := pr2
      rw [h2] at h
      dsimp only at h
      cases h3 : registerControllersRouter Router.init cfg.controllers with
      | error e => rw [h3] at h; cases h
      | ok pr3 =>
        obtain ⟨rt3, evs3⟩ := pr3
        rw [h3] at h
        dsimp only at h
        simp only [Except.ok.injEq, Prod.mk.injEq] at h
        obtain ⟨hdi, hrt, hevs⟩ := h
        subst hdi
        subst hrt
        subst hevs
        exact ⟨di1, evs1, evs2, evs3, rfl, h2, rfl, rfl⟩

/-- C6: on a successful `Application` construction, the event trace is
first the DI registrations of the injectables in list order (each under
its class name with its declared scope), then the DI registrations of
the controllers in list order (each under its class name with its
metadata's scope), and only then — after all DI registration — the
Router registrations of the controllers; no instantiation event occurs
during construction. -/
theorem C6_construct_order (di0 : DIState) (cfg : ApplicationConfig)
    (di : DIState) (rt : RouterState) (evs : List AppEvent)
    (h : Application.construct di0 cfg = Except.ok (di, rt, evs)) :
    evs.take cfg.injectables.length
        = cfg.injectables.map (fun i => AppEvent.diRegister i.name i.scope) ∧
    List.Forall₂ (fun (c : Controller) (e : AppEvent) =>
        ∃ m, c.meta = some m ∧ e = AppEvent.diRegister c.name m.scope)
      cfg.controllers
      ((evs.drop cfg.injectables.length).take cfg.controllers.length) ∧
    evs.drop (cfg.injectables.length + cfg.controllers.length)
        = cfg.controllers.map (fun c => AppEvent.routerRegister c.name) ∧
    evs.countP isInstantiateEvent = 0 := by
  obtain ⟨di1, evs1, evs2, evs3, h1, h2, h3, hevs⟩ :=
    construct_ok_decomp di0 cfg di rt evs h
  have he1 := registerInjectables_ok cfg.injectables di0 di1 evs1 h1
  obtain ⟨he2, he2all⟩ := registerControllersDI_ok cfg.controllers di1 di evs2 h2
  have he3 := registerControllersRouter_ok cfg.controllers Router.init rt evs3 h3
  have hl1 : evs1.length = cfg.injectables.length := by
    rw [he1]; exact List.length_map _ _
  have hl2 : evs2.length = cfg.controllers.length :=
    (List.Forall₂.length_eq he2).symm
  subst hevs
  refine ⟨?_, ?_, ?_, ?_⟩
  · rw [List.append_assoc, List.take_left' hl1, he1]
  · rw [List.append_assoc, List.drop_left' hl1, List.take_left' hl2]
    exact he2
  · have hl12 : (evs1 ++ evs2).length = cfg.injectables.length + cfg.controllers.length := by
      rw [List.length_append, hl1, hl2]
    rw [List.drop_left' hl12, he3]
  · refine List.countP_eq_zero.mpr ?_
    intro e he
    rcases List.mem_append.mp he with he12 | he3m
    · rcases List.mem_append.mp he12 with he1m | he2m
      · rw [he1] at he1m
        obtain ⟨i, -, hi⟩ := List.mem_map.mp he1m
        rw [← hi]
        simp [isInstantiateEvent]
      · have := he2all e he2m
        cases e with
        | diRegister a b => simp [isInstantiateEvent]
        | routerRegister a => cases this
        | instantiate a => cases this
    · rw [he3] at he3m
      obtain ⟨c, -, hc⟩ := List.mem_map.mp he3m
      rw [← hc]
      simp [isInstantiateEvent]

/-- C6 witness: constructing over the one-injectable, one-controller
sample config produces the three registration events in order and no
instantiation. -/
theorem C6_witness :
    sampleEvents.take 1
        = [AppEvent.diRegister "DinosaurService" EInjectionScope.singleton] ∧
    sampleEvents.drop 2 = [AppEvent.routerRegister "DinosaurController"] ∧
    sampleEvents.countP isInstantiateEvent = 0 := by
  have h := C6_construct_order { registry := [] } sampleConfig
    { registry := [("DinosaurService", EInjectionScope.singleton),
                   ("DinosaurController", EInjectionScope.singleton)] }
    (registerRun Router.init dinosaurController).1
    sampleEvents rfl
  exact ⟨h.1, h.2.2.1, h.2.2.2⟩

/-- C8: `getAll` returns the service's 3-element dinosaur array
unchanged; registering the `/dinosaurs` controller installs a dispatch
entry matching `GET /dinosaurs`; and executing its action (which
returns the array) yields `ExecutionResult
{ status: 200, body: [the 3 records] }` for every request context. -/
theorem C8_endToEnd :
    DinosaurService.new.getAll = dinosaurRecords ∧
    dinosaurRecords.length = 3 ∧
    findRoute (registerRun Router.init dinosaurController).1 EHttpMethod.get "/dinosaurs"
      = some { requestMethod := EHttpMethod.get
               path := "/dinosaurs"
               container := { meta := dinosaurControllerMeta
                              controllerName := "DinosaurController" }
               route := dinosaurRoute } ∧
    ∀ ctx : Ctx,
      specExecute [] (fun _ => Outcome.ret (JSValue.arr DinosaurService.new.getAll)) ctx
        = { body := JSValue.arr dinosaurRecords, status := 200 } :=
  ⟨rfl, rfl, rfl, fun _ => rfl⟩

/-- C9: `getById` is total — for every string it returns
`#dinosaurs[parseInt(id, 10)]`: the record at the parsed index when
that index is in range `0..2`, and `undefined` (never an error) when
the string does not parse to a number or parses outside the range. -/
theorem C9_getById_total (id : String) :
    (jsParseInt id = none → DinosaurService.new.getById id = JSValue.undefined) ∧
    (∀ k : Int, jsParseInt id = some k →
      (0 ≤ k ∧ k < 3 →
        DinosaurService.new.getById id = dinosaurRecords.getD k.toNat JSValue.undefined) ∧
      (k < 0 ∨ 3 ≤ k → DinosaurService.new.getById id = JSValue.undefined)) := by
  constructor
  · intro h
    show jsIndex dinosaurRecords (jsParseInt id) = JSValue.undefined
    rw [h]
    rfl
  · intro k hk
    constructor
    · intro hin
      show jsIndex dinosaurRecords (jsParseInt id) = dinosaurRecords.getD k.toNat JSValue.undefined
      rw [hk]
      show (if k < 0 then JSValue.undefined else dinosaurRecords.getD k.toNat JSValue.undefined)
          = dinosaurRecords.getD k.toNat JSValue.undefined
      rw [if_neg (not_lt.mpr hin.1)]
    · intro hout
      show jsIndex dinosaurRecords (jsParseInt id) = JSValue.undefined
      rw [hk]
      show (if k < 0 then JSValue.undefined else dinosaurRecords.getD k.toNat JSValue.undefined)
          = JSValue.undefined
      rcases hout with hneg | hbig
      · rw [if_pos hneg]
      · rw [if_neg (not_lt.mpr (le_trans (by norm_num) hbig))]
        refine List.getD_eq_default _ _ ?_
        show (3 : Nat) ≤ k.toNat
        omega

/-- C9 witness: `"2"` hits the third record, `"99"` and a non-numeric
string yield `undefined`. -/
theorem C9_witness :
    DinosaurService.new.getById "2"
      = JSValue.obj [("id", JSValue.num 2), ("name", JSValue.str "Diplodocus"),
          ("period", JSValue.str "Oxfordian")] ∧
    DinosaurService.new.getById "99" = JSValue.undefined ∧
    DinosaurService.new.getById "zzz" = JSValue.undefined := by
  refine ⟨?_, ?_, ?_⟩
  · exact ((C9_getById_total "2").2 2 rfl).1 ⟨by norm_num, by norm_num⟩
  · exact ((C9_getById_total "99").2 99 rfl).2 (Or.inr (by norm_num))
  · exact (C9_getById_total "zzz").1 rfl

end D2x
